import Mathlib

/-!
Shallow embedding of the go-auth identity and session lifecycle engine.

The definitions below are translated from the Go sources:
* `src/database/models/user.go` — the data model (User, OAuthAccount,
  OAuthState, Session, PasswordReset),
* `src/handlers/auth.go` — Register, Login, RefreshToken, RevokeToken,
* `src/handlers/password_reset.go` — RequestPasswordReset, OAuthInitiate,
  OAuthCallback, processOAuthLogin and its helpers,
* `src/unnamed/part_001` — GetMe, GetOAuthAccounts, UnlinkOAuthAccount,
* `src/utils/crypto.go` — GenerateRefreshToken, HashTokenSHA256,
* `src/unnamed/part_011` — ValidateOAuthState.

Conventions: database rows are lists of records, SQL `WHERE ... First`
is `List.find?`, deletion of a single row found by primary key is
`List.eraseP` of the first matching row, `UPDATE` via gorm `Save` /
`Updates` keyed on the primary key is a `List.map` guarded on that key.
Time is `Nat` seconds.  A `NULL` text column (the password digest of an
OAuth-only account) is modelled as the empty string, matching Go's zero
value which is what the handlers actually store and compare against.
The external hashing primitives (bcrypt, SHA-256) are opaque function
parameters `hashFn` / `verifyFn`, following the spec's treatment of
hashing as an external collaborator.
-/

namespace GoAuth

/-- AccountType from `src/database/models/user.go`: email (credential),
oauth (federated), hybrid. -/
inductive AccountType
  | email
  | oauth
  | hybrid
deriving DecidableEq, Repr

/-- OAuthProvider from `src/database/models/user.go`. -/
inductive OAuthProvider
  | google
  | github
deriving DecidableEq, Repr

/-- User row (`models.User`).  Only the fields the engine's decision
logic reads or writes are kept; profile preferences are orthogonal.
`password = ""` models the NULL digest of OAuth-only accounts. -/
structure User where
  id : Nat
  username : String
  email : String
  password : String
  accountType : AccountType
deriving DecidableEq, Repr

/-- OAuthAccount row (`models.OAuthAccount`).  Token columns carry the
values stored by the handlers (EncryptToken is the identity no-op in
`src/unnamed/part_011`). -/
structure OAuthAccount where
  userID : Nat
  provider : OAuthProvider
  providerID : String
  email : String
  name : String
  accessToken : String
  refreshToken : String
deriving DecidableEq, Repr

/-- The account store: users and oauth_accounts tables plus the
auto-increment counter for user ids. -/
structure DB where
  users : List User
  links : List OAuthAccount
  nextUserID : Nat
deriving DecidableEq, Repr

/-- Result tags for the engine operations, one per distinct
handler outcome. -/
inductive OpResult
  | registered
  | duplicateUser
  | loggedIn
  | newFederated
  | linkRequired
  | alreadyLinked
  | unlinked
  | notLinked
  | lastAuthMethod
  | userNotFound
  | usernameExhausted
deriving DecidableEq, Repr

/-- HTTP status attached to each outcome by the handlers. -/
def httpCode : OpResult → Nat
  | .registered => 200
  | .duplicateUser => 400
  | .loggedIn => 200
  | .newFederated => 201
  | .linkRequired => 409
  | .alreadyLinked => 409
  | .unlinked => 200
  | .notLinked => 404
  | .lastAuthMethod => 400
  | .userNotFound => 404
  | .usernameExhausted => 500

/-- The `action` discriminator in the JSON payload, where present. -/
def actionOf : OpResult → Option String
  | .loggedIn => some "login"
  | .newFederated => some "register"
  | .linkRequired => some "link_required"
  | _ => none

/-- The oauth_accounts row the handlers insert on register and link. -/
def mkLink (uid : Nat) (p : OAuthProvider) (pid email name accessTok refreshTok : String) :
    OAuthAccount :=
  { userID := uid, provider := p, providerID := pid, email := email, name := name,
    accessToken := accessTok, refreshToken := refreshTok }

/-- Lookup of an OAuthAccount by (provider, provider_id), the first
query of `processOAuthLogin`. -/
def findLink (db : DB) (p : OAuthProvider) (pid : String) : Option OAuthAccount :=
  db.links.find? (fun l => decide (l.provider = p ∧ l.providerID = pid))

/-- Lookup of a user by email (`tx.Where("email = ?")...First`). -/
def findUserByEmail (db : DB) (e : String) : Option User :=
  db.users.find? (fun u => decide (u.email = e))

/-- Lookup of a user by primary key (`tx.First(&user, id)`). -/
def findUserByID (db : DB) (uid : Nat) : Option User :=
  db.users.find? (fun u => decide (u.id = uid))

/-- All oauth_accounts rows of one user (`Where("user_id = ?")`). -/
def userLinks (db : DB) (uid : Nat) : List OAuthAccount :=
  db.links.filter (fun l => decide (l.userID = uid))

/-- Register from `src/handlers/auth.go`: insert a user with the bcrypt
digest; the unique constraints on email and username turn a duplicate
into a 400 error.  The account type column keeps its gorm default
`'email'`. -/
def registerCredential (db : DB) (username email passwordHash : String) :
    OpResult × DB :=
  if db.users.any (fun u => decide (u.email = email ∨ u.username = username)) then
    (.duplicateUser, db)
  else
    (.registered,
      { db with
          users := db.users ++
            [{ id := db.nextUserID, username := username, email := email,
               password := passwordHash, accountType := .email }],
          nextUserID := db.nextUserID + 1 })

/-- generateUsernameFromOAuth from `src/handlers/password_reset.go`:
local part of the email lower-cased, else the display name with spaces
replaced, else "user". -/
def generateUsernameFromOAuth (email name : String) : String :=
  let localPart := (email.splitOn "@").headD ""
  if email ≠ "" ∧ localPart ≠ "" then localPart.toLower
  else if name ≠ "" then (name.replace " " "_").toLower
  else "user"

/-- Is a username already taken (`Count` on the users table)? -/
def usernameTaken (db : DB) (name : String) : Bool :=
  db.users.any (fun u => decide (u.username = name))

/-- The loop body of ensureUniqueUsername: try the current candidate,
then `base_1`, `base_2`, ...; after the suffix passes 1000 the Go loop
errors out.  The fuel argument only bounds the recursion; with fuel
1001 it can never run out before the suffix cap fires. -/
def uniqueUsernameLoop (db : DB) (base : String) :
    String → Nat → Nat → Option String
  | _, _, 0 => none
  | username, suffix, fuel + 1 =>
    if usernameTaken db username then
      if 1000 < suffix + 1 then none
      else uniqueUsernameLoop db base (base ++ "_" ++ toString suffix) (suffix + 1) fuel
    else some username

/-- ensureUniqueUsername from `src/handlers/password_reset.go`. -/
def ensureUniqueUsername (db : DB) (base : String) : Option String :=
  uniqueUsernameLoop db base base 1 1001

/-- handleExistingOAuthLogin: refresh the stored profile snapshot and
provider tokens on the found oauth_accounts row, then log in.  The
gorm `Updates` keyed on the row is the guarded map; session creation is
modelled by the Session Ledger embedding below. -/
def handleExistingOAuthLogin (db : DB) (link : OAuthAccount)
    (email name accessTok refreshTok : String) : OpResult × DB :=
  match findUserByID db link.userID with
  | none => (.userNotFound, db)
  | some _ =>
    (.loggedIn,
      { db with
          links := db.links.map (fun l =>
            if l = link then
              { l with email := email, name := name,
                       accessToken := accessTok, refreshToken := refreshTok }
            else l) })

/-- handleNewOAuthUser: create an OAuth-only account (no password) and
its oauth_accounts row inside the transaction. -/
def handleNewOAuthUser (db : DB) (p : OAuthProvider)
    (pid email name accessTok refreshTok : String) : OpResult × DB :=
  match ensureUniqueUsername db (generateUsernameFromOAuth email name) with
  | none => (.usernameExhausted, db)
  | some username =>
    (.newFederated,
      { users := db.users ++
          [{ id := db.nextUserID, username := username, email := email,
             password := "", accountType := .oauth }],
        links := db.links ++ [mkLink db.nextUserID p pid email name accessTok refreshTok],
        nextUserID := db.nextUserID + 1 })

/-- handleOAuthAccountLinking: refuse a duplicate (user, provider)
link with 409, otherwise create the link and promote an OAuth-only
account to hybrid. -/
def handleOAuthAccountLinking (db : DB) (user : User) (p : OAuthProvider)
    (pid email name accessTok refreshTok : String) : OpResult × DB :=
  if (db.links.find? (fun l => decide (l.userID = user.id ∧ l.provider = p))).isSome then
    (.alreadyLinked, db)
  else
    let db1 : DB :=
      { db with links := db.links ++ [mkLink user.id p pid email name accessTok refreshTok] }
    let db2 : DB :=
      if user.accountType = .oauth then
        { db1 with
            users := db1.users.map (fun u =>
              if u.id = user.id then { u with accountType := .hybrid } else u) }
      else db1
    (.loggedIn, db2)

/-- processOAuthLogin from `src/handlers/password_reset.go`: the
decision table over (provider, providerSubjectID, email), executed in
one transaction.  A rollback leaves the store untouched, which the
pure embedding renders by returning the input `db`. -/
def processOAuthLogin (db : DB) (p : OAuthProvider)
    (pid email name accessTok refreshTok : String) : OpResult × DB :=
  match findLink db p pid with
  | some link => handleExistingOAuthLogin db link email name accessTok refreshTok
  | none =>
    match findUserByEmail db email with
    | none => handleNewOAuthUser db p pid email name accessTok refreshTok
    | some user =>
      match user.accountType with
      | .email => (.linkRequired, db)
      | .oauth => handleOAuthAccountLinking db user p pid email name accessTok refreshTok
      | .hybrid => handleOAuthAccountLinking db user p pid email name accessTok refreshTok

/-- UnlinkOAuthAccount from `src/unnamed/part_001`: refuse when the
account is OAuth-only with at most one link; otherwise delete the row
and demote a hybrid account with no remaining links back to email,
provided it still has a password. -/
def unlinkOAuthAccount (db : DB) (uid : Nat) (p : OAuthProvider) : OpResult × DB :=
  match findUserByID db uid with
  | none => (.userNotFound, db)
  | some user =>
    match db.links.find? (fun l => decide (l.userID = uid ∧ l.provider = p)) with
    | none => (.notLinked, db)
    | some _ =>
      if user.accountType = .oauth ∧ (userLinks db uid).length ≤ 1 then
        (.lastAuthMethod, db)
      else
        let db1 : DB :=
          { db with links := db.links.eraseP (fun l => decide (l.userID = uid ∧ l.provider = p)) }
        let db2 : DB :=
          if user.accountType = .hybrid ∧ (userLinks db1 uid).length = 0 ∧ user.password ≠ "" then
            { db1 with
                users := db1.users.map (fun u =>
                  if u.id = uid then { u with accountType := .email } else u) }
          else db1
        (.unlinked, db2)

/-- The four engine operations of the account-kind property. -/
inductive Op
  | registerCred (username email passwordHash : String)
  | oauthCallback (p : OAuthProvider) (pid email name accessTok refreshTok : String)
  | unlink (uid : Nat) (p : OAuthProvider)

/-- Dispatch one operation against the store. -/
def runOp (db : DB) : Op → OpResult × DB
  | .registerCred un em pw => registerCredential db un em pw
  | .oauthCallback p pid em nm tk rk => processOAuthLogin db p pid em nm tk rk
  | .unlink uid p => unlinkOAuthAccount db uid p

/-- Side conditions supplied by the environment: the stored credential
digest comes from bcrypt's GenerateFromPassword, whose output is never
the empty string (on error the process aborts via log.Fatal). -/
def validOp : Op → Prop
  | .registerCred _ _ pw => pw ≠ ""
  | _ => True

/-- The store a fresh deployment starts from. -/
def emptyDB : DB := { users := [], links := [], nextUserID := 1 }

/-- States reachable by sequences of engine operations. -/
inductive Reachable : DB → Prop
  | init : Reachable emptyDB
  | step {db : DB} (op : Op) : Reachable db → validOp op → Reachable (runOp db op).2

end GoAuth
namespace GoAuth

/-- The account-kind invariant exactly as the specification states it:
federated ⇒ digest absent and at least one linked identity; hybrid ⇒
digest present and at least one linked identity; credential ⇒ digest
present and zero linked identities. -/
def specAccountKindInvariant (db : DB) : Prop :=
  ∀ u ∈ db.users,
    (u.accountType = .oauth → u.password = "" ∧ 1 ≤ (userLinks db u.id).length) ∧
    (u.accountType = .hybrid → u.password ≠ "" ∧ 1 ≤ (userLinks db u.id).length) ∧
    (u.accountType = .email → u.password ≠ "" ∧ (userLinks db u.id).length = 0)

instance (db : DB) : Decidable (specAccountKindInvariant db) := by
  unfold specAccountKindInvariant; infer_instance

/-- Per-user account-kind clauses the code maintains, over a links
table: an OAuth-only account has no digest and exactly one link; a
hybrid account has no digest (it only ever arises by promoting an
OAuth-only account, and the engine never gives it one); a credential
account has a digest and no links. -/
def userClauses (links : List OAuthAccount) (u : User) : Prop :=
  (u.accountType = .oauth →
      u.password = "" ∧ (links.filter (fun l => decide (l.userID = u.id))).length = 1) ∧
  (u.accountType = .hybrid → u.password = "") ∧
  (u.accountType = .email →
      u.password ≠ "" ∧ (links.filter (fun l => decide (l.userID = u.id))).length = 0)

/-- The account-kind invariant the code actually maintains. -/
def codeAccountKindInvariant (db : DB) : Prop :=
  ∀ u ∈ db.users, userClauses db.links u

instance (db : DB) : Decidable (codeAccountKindInvariant db) := by
  unfold codeAccountKindInvariant userClauses; infer_instance

theorem userClauses_intro {links : List OAuthAccount} {u : User}
    (h1 : u.accountType = .oauth →
      u.password = "" ∧ (links.filter (fun l => decide (l.userID = u.id))).length = 1)
    (h2 : u.accountType = .hybrid → u.password = "")
    (h3 : u.accountType = .email →
      u.password ≠ "" ∧ (links.filter (fun l => decide (l.userID = u.id))).length = 0) :
    userClauses links u :=
  ⟨h1, h2, h3⟩

/-- Structural well-formedness maintained by every engine operation:
ids are below the auto-increment counter, user ids are distinct, and
the code's account-kind clauses hold for every user. -/
def dbWellFormed (db : DB) : Prop :=
  (∀ u ∈ db.users, u.id < db.nextUserID) ∧
  (∀ l ∈ db.links, l.userID < db.nextUserID) ∧
  db.users.Pairwise (fun a b => a.id ≠ b.id) ∧
  codeAccountKindInvariant db

theorem eq_of_mem_pairwise_ne {l : List User}
    (hp : l.Pairwise (fun a b => a.id ≠ b.id))
    {a b : User} (ha : a ∈ l) (hb : b ∈ l) (hab : a.id = b.id) : a = b := by
  induction l with
  | nil => cases ha
  | cons x xs ih =>
    rw [List.pairwise_cons] at hp
    rcases List.mem_cons.mp ha with rfl | ha' <;> rcases List.mem_cons.mp hb with rfl | hb'
    · rfl
    · exact absurd hab (hp.1 b hb')
    · exact absurd hab.symm (hp.1 a ha')
    · exact ih hp.2 ha' hb'

theorem length_filter_map_eq {α : Type} (f : α → α) (p : α → Bool) (l : List α)
    (h : ∀ x, p (f x) = p x) :
    ((l.map f).filter p).length = (l.filter p).length := by
  induction l with
  | nil => rfl
  | cons a l ih =>
    simp only [List.map_cons, List.filter_cons, h a]
    cases hp : p a <;> simp [ih]

theorem filter_eraseP_eq {α : Type} (p q : α → Bool) (l : List α)
    (h : ∀ x, q x = true → p x = false) :
    (l.eraseP q).filter p = l.filter p := by
  induction l with
  | nil => rfl
  | cons a l ih =>
    by_cases hq : q a = true
    · rw [List.eraseP_cons_of_pos hq, List.filter_cons, h a hq]
      simp
    · rw [List.eraseP_cons_of_neg (by simpa using hq), List.filter_cons, List.filter_cons]
      by_cases hp : p a = true <;> simp [hp, ih]

theorem userClauses_of_length_eq {links links' : List OAuthAccount} {u : User}
    (hlen : (links'.filter (fun l => decide (l.userID = u.id))).length
      = (links.filter (fun l => decide (l.userID = u.id))).length)
    (h : userClauses links u) : userClauses links' u := by
  unfold userClauses at h ⊢
  rw [hlen]
  exact h

theorem userClauses_append_ne {links : List OAuthAccount} {u : User}
    (l0 : OAuthAccount) (hne : l0.userID ≠ u.id) (h : userClauses links u) :
    userClauses (links ++ [l0]) u := by
  refine userClauses_of_length_eq ?_ h
  have h0 : decide (l0.userID = u.id) = false := by simp [hne]
  rw [List.filter_append, List.filter_singleton, h0]
  simp

theorem userClauses_eraseP {links : List OAuthAccount} {u : User}
    (q : OAuthAccount → Bool) (uid : Nat)
    (hq : ∀ x, q x = true → x.userID = uid) (hne : uid ≠ u.id)
    (h : userClauses links u) : userClauses (links.eraseP q) u := by
  refine userClauses_of_length_eq ?_ h
  rw [filter_eraseP_eq _ q links (fun x hx => by simp [hq x hx, hne])]

theorem wf_registerCredential (db : DB) (un em pw : String) (hpw : pw ≠ "")
    (h : dbWellFormed db) : dbWellFormed (registerCredential db un em pw).2 := by
  obtain ⟨hid, hlid, hpair, hinv⟩ := h
  unfold registerCredential
  by_cases hdup : db.users.any (fun u => decide (u.email = em ∨ u.username = un)) = true
  · rw [if_pos hdup]
    exact ⟨hid, hlid, hpair, hinv⟩
  · rw [if_neg hdup]
    refine ⟨?_, ?_, ?_, ?_⟩
    · intro u hu
      rcases List.mem_append.mp hu with hu' | hu'
      · exact Nat.lt_trans (hid u hu') (Nat.lt_succ_self _)
      · rcases List.mem_singleton.mp hu' with rfl
        exact Nat.lt_succ_self _
    · intro l hl
      exact Nat.lt_trans (hlid l hl) (Nat.lt_succ_self _)
    · refine List.pairwise_append.mpr ⟨hpair, List.pairwise_singleton _ _, ?_⟩
      intro a ha b hb
      rcases List.mem_singleton.mp hb with rfl
      exact Nat.ne_of_lt (hid a ha)
    · intro u hu
      rcases List.mem_append.mp hu with hu' | hu'
      · exact hinv u hu'
      · rcases List.mem_singleton.mp hu' with rfl
        refine ⟨by simp, by simp, fun _ => ⟨hpw, ?_⟩⟩
        rw [List.length_eq_zero, List.filter_eq_nil_iff]
        intro l hl
        simp only [decide_eq_true_eq]
        exact Nat.ne_of_lt (hlid l hl)

theorem wf_map_links (db : DB) (f : OAuthAccount → OAuthAccount)
    (hf : ∀ x, (f x).userID = x.userID) (h : dbWellFormed db) :
    dbWellFormed { db with links := db.links.map f } := by
  obtain ⟨hid, hlid, hpair, hinv⟩ := h
  refine ⟨hid, ?_, hpair, ?_⟩
  · intro l hl
    rcases List.mem_map.mp hl with ⟨x, hx, rfl⟩
    rw [hf x]
    exact hlid x hx
  · intro u hu
    refine userClauses_of_length_eq ?_ (hinv u hu)
    exact length_filter_map_eq f _ db.links (fun x => by simp only [hf x])

theorem wf_handleExistingOAuthLogin (db : DB) (link : OAuthAccount)
    (em nm tk rk : String) (h : dbWellFormed db) :
    dbWellFormed (handleExistingOAuthLogin db link em nm tk rk).2 := by
  unfold handleExistingOAuthLogin
  cases hfind : findUserByID db link.userID with
  | none => exact h
  | some u0 =>
    dsimp only
    exact wf_map_links db _ (fun x => by by_cases hx : x = link <;> simp [hx]) h

theorem wf_handleNewOAuthUser (db : DB) (p : OAuthProvider)
    (pid em nm tk rk : String) (h : dbWellFormed db) :
    dbWellFormed (handleNewOAuthUser db p pid em nm tk rk).2 := by
  obtain ⟨hid, hlid, hpair, hinv⟩ := h
  unfold handleNewOAuthUser
  cases hns : ensureUniqueUsername db (generateUsernameFromOAuth em nm) with
  | none => exact ⟨hid, hlid, hpair, hinv⟩
  | some un =>
    dsimp only
    refine ⟨?_, ?_, ?_, ?_⟩
    · intro u hu
      rcases List.mem_append.mp hu with hu' | hu'
      · exact Nat.lt_trans (hid u hu') (Nat.lt_succ_self _)
      · rcases List.mem_singleton.mp hu' with rfl
        exact Nat.lt_succ_self _
    · intro l hl
      rcases List.mem_append.mp hl with hl' | hl'
      · exact Nat.lt_trans (hlid l hl') (Nat.lt_succ_self _)
      · rcases List.mem_singleton.mp hl' with rfl
        exact Nat.lt_succ_self _
    · refine List.pairwise_append.mpr ⟨hpair, List.pairwise_singleton _ _, ?_⟩
      intro a ha b hb
      rcases List.mem_singleton.mp hb with rfl
      exact Nat.ne_of_lt (hid a ha)
    · intro u hu
      rcases List.mem_append.mp hu with hu' | hu'
      · exact userClauses_append_ne _ (Nat.ne_of_lt (hid u hu')).symm (hinv u hu')
      · rcases List.mem_singleton.mp hu' with rfl
        refine ⟨fun _ => ⟨rfl, ?_⟩, by simp, by simp⟩
        rw [List.filter_append]
        have h1 : (db.links.filter
            (fun l : OAuthAccount => decide (l.userID = db.nextUserID))).length = 0 := by
          rw [List.length_eq_zero, List.filter_eq_nil_iff]
          intro l hl
          simp only [decide_eq_true_eq]
          exact Nat.ne_of_lt (hlid l hl)
        rw [List.length_append, h1, List.filter_singleton]
        simp [mkLink]

end GoAuth
namespace GoAuth

theorem wf_handleOAuthAccountLinking (db : DB) (user : User) (p : OAuthProvider)
    (pid em nm tk rk : String) (hmem : user ∈ db.users)
    (hty : user.accountType = .oauth ∨ user.accountType = .hybrid)
    (h : dbWellFormed db) :
    dbWellFormed (handleOAuthAccountLinking db user p pid em nm tk rk).2 := by
  obtain ⟨hid, hlid, hpair, hinv⟩ := h
  unfold handleOAuthAccountLinking
  by_cases hdup :
      (db.links.find? (fun l => decide (l.userID = user.id ∧ l.provider = p))).isSome = true
  · rw [if_pos hdup]
    exact ⟨hid, hlid, hpair, hinv⟩
  · rw [if_neg hdup]
    dsimp only
    have hlinks : ∀ l ∈ db.links ++ [mkLink user.id p pid em nm tk rk],
        l.userID < db.nextUserID := by
      intro l hl
      rcases List.mem_append.mp hl with hl' | hl'
      · exact hlid l hl'
      · rcases List.mem_singleton.mp hl' with rfl
        exact hid user hmem
    have hnewid : (mkLink user.id p pid em nm tk rk).userID = user.id := rfl
    rcases hty with hty | hty
    · rw [if_pos hty]
      refine ⟨?_, hlinks, ?_, ?_⟩
      · intro u hu
        rcases List.mem_map.mp hu with ⟨x, hx, rfl⟩
        by_cases hxid : x.id = user.id
        · rw [if_pos hxid]
          exact hid x hx
        · rw [if_neg hxid]
          exact hid x hx
      · rw [List.pairwise_map]
        have hga : ∀ x : User,
            (if x.id = user.id then { x with accountType := AccountType.hybrid }
             else x).id = x.id := by
          intro x
          by_cases hx : x.id = user.id
          · rw [if_pos hx]
          · rw [if_neg hx]
        refine hpair.imp ?_
        intro a b hab
        rw [hga a, hga b]
        exact hab
      · intro u hu
        rcases List.mem_map.mp hu with ⟨x, hx, rfl⟩
        by_cases hxid : x.id = user.id
        · have hxu : x = user := eq_of_mem_pairwise_ne hpair hx hmem hxid
          subst hxu
          rw [if_pos rfl]
          have hpw : x.password = "" := ((hinv x hx).1 hty).1
          exact userClauses_intro (fun hc => by cases hc) (fun _ => hpw) (fun hc => by cases hc)
        · rw [if_neg hxid]
          refine userClauses_append_ne _ ?_ (hinv x hx)
          rw [hnewid]
          exact fun hc => hxid hc.symm
    · have hno : ¬ user.accountType = .oauth := by rw [hty]; exact fun hc => by cases hc
      rw [if_neg hno]
      refine ⟨hid, hlinks, hpair, ?_⟩
      intro u hu
      by_cases huid : u.id = user.id
      · have hu_eq : u = user := eq_of_mem_pairwise_ne hpair hu hmem huid
        subst hu_eq
        have hpw : u.password = "" := (hinv u hu).2.1 hty
        refine userClauses_intro (fun hc => ?_) (fun _ => hpw) (fun hc => ?_)
        · rw [hty] at hc; cases hc
        · rw [hty] at hc; cases hc
      · refine userClauses_append_ne _ ?_ (hinv u hu)
        rw [hnewid]
        exact fun hc => huid hc.symm

end GoAuth
namespace GoAuth

theorem wf_unlinkOAuthAccount (db : DB) (uid : Nat) (p : OAuthProvider)
    (h : dbWellFormed db) : dbWellFormed (unlinkOAuthAccount db uid p).2 := by
  obtain ⟨hid, hlid, hpair, hinv⟩ := h
  unfold unlinkOAuthAccount
  cases hfu : findUserByID db uid with
  | none => exact ⟨hid, hlid, hpair, hinv⟩
  | some user =>
    dsimp only
    cases hfl : db.links.find? (fun l => decide (l.userID = uid ∧ l.provider = p)) with
    | none => exact ⟨hid, hlid, hpair, hinv⟩
    | some link0 =>
      dsimp only
      have huser_mem : user ∈ db.users := List.mem_of_find?_eq_some hfu
      have huser_id : user.id = uid := by simpa using List.find?_some hfu
      have hl0mem : link0 ∈ db.links := List.mem_of_find?_eq_some hfl
      have hl0p : link0.userID = uid ∧ link0.provider = p := by
        simpa using List.find?_some hfl
      have hq : ∀ x : OAuthAccount,
          (fun l : OAuthAccount => decide (l.userID = uid ∧ l.provider = p)) x = true →
            x.userID = uid := by
        intro x hx
        exact (of_decide_eq_true hx).1
      have hsub : ∀ l ∈ db.links.eraseP
          (fun l : OAuthAccount => decide (l.userID = uid ∧ l.provider = p)), l ∈ db.links :=
        fun l hl => (List.eraseP_sublist db.links).subset hl
      by_cases hguard : user.accountType = .oauth ∧ (userLinks db uid).length ≤ 1
      · rw [if_pos hguard]
        exact ⟨hid, hlid, hpair, hinv⟩
      · rw [if_neg hguard]
        dsimp only
        split
        · rename_i hdem
          refine ⟨?_, ?_, ?_, ?_⟩
          · intro u hu
            rcases List.mem_map.mp hu with ⟨x, hx, rfl⟩
            by_cases hxid : x.id = uid
            · rw [if_pos hxid]
              exact hid x hx
            · rw [if_neg hxid]
              exact hid x hx
          · intro l hl
            exact hlid l (hsub l hl)
          · rw [List.pairwise_map]
            have hga : ∀ x : User,
                (if x.id = uid then { x with accountType := AccountType.email }
                 else x).id = x.id := by
              intro x
              by_cases hx : x.id = uid
              · rw [if_pos hx]
              · rw [if_neg hx]
            refine hpair.imp ?_
            intro a b hab
            rw [hga a, hga b]
            exact hab
          · intro u hu
            rcases List.mem_map.mp hu with ⟨x, hx, rfl⟩
            by_cases hxid : x.id = uid
            · have hxu : x = user :=
                eq_of_mem_pairwise_ne hpair hx huser_mem (hxid.trans huser_id.symm)
              rw [if_pos hxid]
              refine userClauses_intro (fun hc => by cases hc) (fun hc => by cases hc)
                (fun _ => ⟨?_, ?_⟩)
              · rw [hxu]
                exact hdem.2.2
              · have := hdem.2.1
                simp only [userLinks] at this
                rw [hxid]
                exact this
            · rw [if_neg hxid]
              exact userClauses_eraseP _ uid hq (fun hc => hxid hc.symm) (hinv x hx)
        · rename_i hdem
          refine ⟨hid, fun l hl => hlid l (hsub l hl), hpair, ?_⟩
          intro u hu
          by_cases hxid : u.id = uid
          · have hu_eq : u = user :=
              eq_of_mem_pairwise_ne hpair hu huser_mem (hxid.trans huser_id.symm)
            cases hty : u.accountType with
            | email =>
              have hcl := (hinv u hu).2.2 hty
              have hmemf : link0 ∈ db.links.filter (fun l => decide (l.userID = u.id)) :=
                List.mem_filter.mpr ⟨hl0mem, by simp [hl0p.1, hxid]⟩
              rw [List.length_eq_zero] at hcl
              rw [hcl.2] at hmemf
              cases hmemf
            | oauth =>
              have hcount : (userLinks db uid).length = 1 := by
                have := ((hinv u hu).1 hty).2
                simp only [hxid] at this
                simpa [userLinks] using this
              rw [hu_eq] at hty
              exact absurd ⟨hty, le_of_eq hcount⟩ hguard
            | hybrid =>
              refine userClauses_intro (fun hc => ?_) (fun _ => (hinv u hu).2.1 hty)
                (fun hc => ?_)
              · rw [hty] at hc; cases hc
              · rw [hty] at hc; cases hc
          · exact userClauses_eraseP _ uid hq (fun hc => hxid hc.symm) (hinv u hu)

theorem wf_processOAuthLogin (db : DB) (p : OAuthProvider)
    (pid em nm tk rk : String) (h : dbWellFormed db) :
    dbWellFormed (processOAuthLogin db p pid em nm tk rk).2 := by
  unfold processOAuthLogin
  cases hfl : findLink db p pid with
  | some link => exact wf_handleExistingOAuthLogin db link em nm tk rk h
  | none =>
    dsimp only
    cases hfu : findUserByEmail db em with
    | none => exact wf_handleNewOAuthUser db p pid em nm tk rk h
    | some user =>
      dsimp only
      have hmem : user ∈ db.users := List.mem_of_find?_eq_some hfu
      cases hty : user.accountType with
      | email => exact h
      | oauth =>
        exact wf_handleOAuthAccountLinking db user p pid em nm tk rk hmem (Or.inl hty) h
      | hybrid =>
        exact wf_handleOAuthAccountLinking db user p pid em nm tk rk hmem (Or.inr hty) h

theorem reachable_dbWellFormed (db : DB) (h : Reachable db) : dbWellFormed db := by
  induction h with
  | init =>
    refine ⟨?_, ?_, ?_, ?_⟩ <;> simp [emptyDB, codeAccountKindInvariant]
  | step op hr hv ih =>
    cases op with
    | registerCred un em pw => exact wf_registerCredential _ un em pw hv ih
    | oauthCallback p pid em nm tk rk => exact wf_processOAuthLogin _ p pid em nm tk rk ih
    | unlink uid p => exact wf_unlinkOAuthAccount _ uid p ih

end GoAuth
namespace GoAuth

/-- A federated registration via Google for a@x.com. -/
def c1FirstOp : Op := .oauthCallback .google "g1" "a@x.com" "Alice" "ta" "ra"

/-- A subsequent GitHub OAuth callback carrying the same email. -/
def c1SecondOp : Op := .oauthCallback .github "h1" "a@x.com" "Alice" "tb" "rb"

/-- The store after the two callbacks: one account of kind hybrid with
two links and no credential digest. -/
def c1BadDB : DB := (runOp (runOp emptyDB c1FirstOp).2 c1SecondOp).2

theorem c1BadDB_reachable : Reachable c1BadDB :=
  Reachable.step c1SecondOp (Reachable.step c1FirstOp Reachable.init trivial) trivial

/-- C1 counterexample: the account-kind invariant as stated by the spec
fails on the code.  Registering a new federated account via Google and
then completing a GitHub callback with the same email promotes the
account to hybrid while its credential digest is still absent, so the
clause "hybrid implies the credential digest is present" is violated
after an engine operation. -/
theorem c1_spec_invariant_counterexample :
    Reachable c1BadDB ∧ ¬ specAccountKindInvariant c1BadDB :=
  ⟨c1BadDB_reachable, by decide⟩

/-- C1 amended: after every sequence of engine operations (credential
registration, federated registration and provider linking via the
OAuth callback, provider unlinking) the invariant the code maintains
holds for every account: kind credential ⇒ digest present and zero
linked identities; kind federated ⇒ digest absent and exactly one
linked identity; kind hybrid ⇒ digest absent (a hybrid account only
arises by promoting a federated one, and unlinking can leave it with
zero identities). -/
theorem c1_account_kind_invariant_amended (db : DB) (h : Reachable db) :
    codeAccountKindInvariant db :=
  (reachable_dbWellFormed db h).2.2.2

/-- Witness for C1: the amended invariant evaluated on the concrete
two-callback store. -/
theorem c1_account_kind_invariant_amended_witness :
    codeAccountKindInvariant c1BadDB :=
  c1_account_kind_invariant_amended c1BadDB c1BadDB_reachable

end GoAuth
namespace GoAuth

/-- OAuthState row (`models.OAuthState`): CSRF guard for the OAuth
redirect flow. -/
structure OAuthStateRow where
  state : String
  provider : OAuthProvider
  nonce : String
  redirectURL : String
  userAgent : String
  ipAddress : String
  expiresAt : Nat
deriving DecidableEq, Repr

/-- The state insertion of OAuthInitiate: persists the state value,
nonce, requester fingerprint (user-agent and source address) and a
10-minute expiry; the unique index on the state column rejects a
duplicate. -/
def issueOAuthState (rows : List OAuthStateRow) (s : String) (p : OAuthProvider)
    (nonce redirect ua ip : String) (now : Nat) : Option (List OAuthStateRow) :=
  if rows.any (fun r => decide (r.state = s)) then none
  else some (rows ++
    [{ state := s, provider := p, nonce := nonce, redirectURL := redirect,
       userAgent := ua, ipAddress := ip, expiresAt := now + 600 }])

/-- ValidateOAuthState from `src/unnamed/part_011`: rejects an empty
state and a state shorter than 32 characters; the nonce and the
presented fingerprint parameters are accepted without being examined. -/
def validateOAuthState (state nonce userAgent ipAddress : String) : Bool :=
  if state = "" then false
  else if state.length < 32 then false
  else true

/-- Outcome of the state-consumption fragment of OAuthCallback. -/
inductive ConsumeResult
  | ok (row : OAuthStateRow)
  | invalidOrExpired
  | validationFailed
deriving DecidableEq, Repr

/-- The state-consumption fragment of OAuthCallback: look up the row by
(state, provider, unexpired); on a miss fail with invalidOrExpired
(400 "Invalid or expired OAuth state"); then run ValidateOAuthState
with the presented fingerprint, and delete the row (`db.Delete`) after
validation passes. -/
def consumeOAuthState (rows : List OAuthStateRow) (s : String) (p : OAuthProvider)
    (ua ip : String) (now : Nat) : ConsumeResult × List OAuthStateRow :=
  match rows.find? (fun r => decide (r.state = s ∧ r.provider = p ∧ now < r.expiresAt)) with
  | none => (.invalidOrExpired, rows)
  | some row =>
    if validateOAuthState s row.nonce ua ip then
      (.ok row, rows.eraseP (fun r => decide (r = row)))
    else (.validationFailed, rows)

/-- Rows as OAuthInitiate can create them: every stored state value is
a GenerateOAuthState output (44 base64 characters of 32 random bytes,
so nonempty and at least 32 characters), and state values are unique
(uniqueIndex on the state column). -/
def stateRowsWellFormed (rows : List OAuthStateRow) : Prop :=
  (∀ r ∈ rows, r.state ≠ "" ∧ 32 ≤ r.state.length) ∧
  rows.Pairwise (fun a b => a.state ≠ b.state)

instance (rows : List OAuthStateRow) : Decidable (stateRowsWellFormed rows) := by
  unfold stateRowsWellFormed; infer_instance

theorem eq_of_mem_pairwise_key {α κ : Type} (key : α → κ) {l : List α}
    (hp : l.Pairwise (fun a b => key a ≠ key b)) {a b : α}
    (ha : a ∈ l) (hb : b ∈ l) (hab : key a = key b) : a = b := by
  induction l with
  | nil => cases ha
  | cons x xs ih =>
    rw [List.pairwise_cons] at hp
    rcases List.mem_cons.mp ha with rfl | ha' <;> rcases List.mem_cons.mp hb with rfl | hb'
    · rfl
    · exact absurd hab (hp.1 b hb')
    · exact absurd hab.symm (hp.1 a ha')
    · exact ih hp.2 ha' hb'

theorem not_mem_eraseP_self {α κ : Type} [DecidableEq α] (key : α → κ) {l : List α}
    (hp : l.Pairwise (fun a b => key a ≠ key b)) {a : α} (ha : a ∈ l) :
    a ∉ l.eraseP (fun r => decide (r = a)) := by
  induction l with
  | nil => cases ha
  | cons x xs ih =>
    rw [List.pairwise_cons] at hp
    by_cases hx : x = a
    · rw [List.eraseP_cons_of_pos (by simp [hx])]
      intro hmem
      exact hp.1 a hmem (by rw [hx])
    · rw [List.eraseP_cons_of_neg (by simp [hx])]
      intro hmem
      rcases List.mem_cons.mp hmem with rfl | hmem'
      · exact hx rfl
      · rcases List.mem_cons.mp ha with rfl | ha'
        · exact hx rfl
        · exact ih hp.2 ha' hmem'

theorem validate_of_wellFormed {s : String} (hne : s ≠ "") (hlen : 32 ≤ s.length)
    (nonce ua ip : String) : validateOAuthState s nonce ua ip = true := by
  unfold validateOAuthState
  rw [if_neg hne, if_neg (by omega)]

/-- C2: the OAuth CSRF state is single-use.  Over any well-formed state
store (states issued by OAuthInitiate: unique, at least 32 characters)
and non-decreasing time, after one consume call for a state value —
whatever its outcome — a second consume call for the same state value
always fails with invalidOrExpired, so a state value can never be
replayed. -/
theorem c2_oauth_state_single_use (rows : List OAuthStateRow) (s : String)
    (p : OAuthProvider) (ua1 ip1 ua2 ip2 : String) (t1 t2 : Nat)
    (hwf : stateRowsWellFormed rows) (ht : t1 ≤ t2) :
    (consumeOAuthState (consumeOAuthState rows s p ua1 ip1 t1).2 s p ua2 ip2 t2).1
      = .invalidOrExpired := by
  obtain ⟨hstates, hpair⟩ := hwf
  unfold consumeOAuthState
  cases hfind : rows.find?
      (fun r => decide (r.state = s ∧ r.provider = p ∧ t1 < r.expiresAt)) with
  | none =>
    dsimp only
    have hnone2 : rows.find?
        (fun r => decide (r.state = s ∧ r.provider = p ∧ t2 < r.expiresAt)) = none := by
      rw [List.find?_eq_none] at hfind ⊢
      intro x hx hx2
      rcases of_decide_eq_true hx2 with ⟨h1, h2, h3⟩
      exact hfind x hx (decide_eq_true ⟨h1, h2, by omega⟩)
    rw [hnone2]
  | some row =>
    dsimp only
    have hmem : row ∈ rows := List.mem_of_find?_eq_some hfind
    have hprop : row.state = s ∧ row.provider = p ∧ t1 < row.expiresAt := by
      have := List.find?_some hfind
      simpa using this
    obtain ⟨hrs, hrp, hrt⟩ := hprop
    have hval : validateOAuthState s row.nonce ua1 ip1 = true := by
      refine validate_of_wellFormed ?_ ?_ _ _ _
      · rw [← hrs]; exact (hstates row hmem).1
      · rw [← hrs]; exact (hstates row hmem).2
    have hnone2 : (rows.eraseP (fun r => decide (r = row))).find?
        (fun r => decide (r.state = s ∧ r.provider = p ∧ t2 < r.expiresAt)) = none := by
      rw [List.find?_eq_none]
      intro x hx hx2
      rcases of_decide_eq_true hx2 with ⟨h1, _, _⟩
      have hxrows : x ∈ rows := ((List.eraseP_sublist rows).subset) hx
      have hxrow : x = row :=
        eq_of_mem_pairwise_key (fun r => r.state) hpair hxrows hmem (h1.trans hrs.symm)
      rw [hxrow] at hx
      exact not_mem_eraseP_self (fun r => r.state) hpair hmem hx
    rw [hval, if_pos rfl]
    dsimp only
    rw [hnone2]

/-- A concrete well-formed store: one issued Google state of 44
characters with the fingerprint (UA-1, 10.0.0.1). -/
def c2Rows : List OAuthStateRow :=
  [{ state := "AAAAAAAAAAAAAAAAAAAAAAAAAAAAAAAAAAAAAAAAAAAA", provider := .google,
     nonce := "nonce-1", redirectURL := "", userAgent := "UA-1",
     ipAddress := "10.0.0.1", expiresAt := 600 }]

/-- Witness for C2: consuming the stored state twice, the second call
fails with invalidOrExpired. -/
theorem c2_oauth_state_single_use_witness :
    (consumeOAuthState
      (consumeOAuthState c2Rows "AAAAAAAAAAAAAAAAAAAAAAAAAAAAAAAAAAAAAAAAAAAA"
        .google "UA-1" "10.0.0.1" 0).2
      "AAAAAAAAAAAAAAAAAAAAAAAAAAAAAAAAAAAAAAAAAAAA" .google "UA-1" "10.0.0.1" 10).1
      = .invalidOrExpired :=
  c2_oauth_state_single_use c2Rows _ .google _ _ _ _ 0 10 (by decide) (by omega)

/-- The stored row for the C3 scenario: issued with fingerprint
(agent-A, 10.0.0.1). -/
def c3Row : OAuthStateRow :=
  { state := "BBBBBBBBBBBBBBBBBBBBBBBBBBBBBBBBBBBBBBBBBBBB", provider := .google,
    nonce := "nonce-3", redirectURL := "", userAgent := "agent-A",
    ipAddress := "10.0.0.1", expiresAt := 600 }

/-- C3 counterexample: a consume call whose presented fingerprint
(agent-B, 10.9.9.9) differs from the fingerprint stored at issue time
(agent-A, 10.0.0.1) succeeds instead of failing with
FingerprintMismatch — no fingerprint comparison exists in
ValidateOAuthState, and no FingerprintMismatch outcome exists at all. -/
theorem c3_fingerprint_mismatch_counterexample :
    (consumeOAuthState [c3Row] c3Row.state .google "agent-B" "10.9.9.9" 0).1 = .ok c3Row
      ∧ "agent-B" ≠ c3Row.userAgent ∧ "10.9.9.9" ≠ c3Row.ipAddress := by
  decide

/-- C3 amended: the stored requester fingerprint is never compared on
consume.  Whenever the lookup finds the stored row and the state value
is well-formed (nonempty, at least 32 characters — true of every issued
state), consumption succeeds for every presented fingerprint; the only
validation performed is on the state value's length. -/
theorem c3_fingerprint_ignored_amended (rows : List OAuthStateRow) (s : String)
    (p : OAuthProvider) (ua ip : String) (now : Nat) (row : OAuthStateRow)
    (hfind : rows.find?
      (fun r => decide (r.state = s ∧ r.provider = p ∧ now < r.expiresAt)) = some row)
    (hne : s ≠ "") (hlen : 32 ≤ s.length) :
    (consumeOAuthState rows s p ua ip now).1 = .ok row := by
  unfold consumeOAuthState
  rw [hfind]
  dsimp only
  rw [validate_of_wellFormed hne hlen, if_pos rfl]

/-- Witness for C3 amended: the mismatched-fingerprint consume on the
concrete store succeeds. -/
theorem c3_fingerprint_ignored_amended_witness :
    (consumeOAuthState [c3Row] "BBBBBBBBBBBBBBBBBBBBBBBBBBBBBBBBBBBBBBBBBBBB"
      .google "agent-B" "10.9.9.9" 0).1 = .ok c3Row :=
  c3_fingerprint_ignored_amended [c3Row] _ .google "agent-B" "10.9.9.9" 0 c3Row
    (by decide) (by decide) (by decide)

end GoAuth
namespace GoAuth

/-- PasswordReset row (`models.PasswordReset`): the token column stores
only the SHA-256 digest. -/
structure PasswordResetRow where
  email : String
  tokenHash : String
  used : Bool
  createdAt : Nat
  expiresAt : Nat
deriving DecidableEq, Repr

/-- What the HTTP layer hands back to the external client: either a
fiber error with its status code, or a JSON success envelope. -/
inductive ClientResponse
  | fiberError (status : Nat) (message : String)
  | jsonSuccess (code : Nat) (message : String)
deriving DecidableEq, Repr

/-- The uniform success message of RequestPasswordReset. -/
def genericResetMessage : String :=
  "If an account with that email exists, a password reset link has been sent."

/-- The 429 message of RequestPasswordReset. -/
def rateLimitedMessage : String :=
  "Password reset already requested recently. Please check your email or wait 15 minutes."

/-- The rate-limit guard of RequestPasswordReset: an unused grant for
the email created within the last 15 minutes
(`email = ? AND created_at > now-15min AND used = false`; time in
seconds, truncated subtraction at the epoch). -/
def hasRecentUnusedGrant (resets : List PasswordResetRow) (email : String)
    (now : Nat) : Bool :=
  resets.any (fun r => decide (r.email = email) && decide (now - 900 < r.createdAt)
    && !r.used)

/-- RequestPasswordReset from `src/handlers/password_reset.go`.  The
external token generator's digest is the `tokenHash` parameter; the
cleartext token only leaves through the fire-and-forget mail dispatch
and is never part of the stored state.  When the user exists, all
prior unused grants for the email are marked used and a fresh grant
with a 1-hour expiry is inserted. -/
def requestPasswordReset (users : List User) (resets : List PasswordResetRow)
    (email : String) (now : Nat) (tokenHash : String) :
    ClientResponse × List PasswordResetRow :=
  if email = "" then (.fiberError 400 "Email is required", resets)
  else
    let userExists := users.any (fun u => decide (u.email = email))
    if hasRecentUnusedGrant resets email now then
      (.fiberError 429 rateLimitedMessage, resets)
    else if userExists then
      (.jsonSuccess 200 genericResetMessage,
        (resets.map (fun r =>
          if r.email = email ∧ r.used = false then { r with used := true } else r)) ++
        [{ email := email, tokenHash := tokenHash, used := false,
           createdAt := now, expiresAt := now + 3600 }])
    else (.jsonSuccess 200 genericResetMessage, resets)

/-- A credential account for the C4 scenario. -/
def c4User : User :=
  { id := 1, username := "bob", email := "bob@x.com", password := "digest-1",
    accountType := .email }

/-- An unused grant for bob@x.com created 100 seconds before the
request. -/
def c4RecentGrant : PasswordResetRow :=
  { email := "bob@x.com", tokenHash := "h1", used := false,
    createdAt := 1000, expiresAt := 4600 }

/-- C4 counterexample: with a live, unexpired, unused grant created
within the last 15 minutes, the password-reset request operation
returns HTTP 429 with a rate-limit message to the external client
instead of the generic success shape — the internal RateLimited
outcome is exposed. -/
theorem c4_rate_limited_exposed_counterexample :
    (requestPasswordReset [c4User] [c4RecentGrant] "bob@x.com" 1100 "h2").1
        = .fiberError 429 rateLimitedMessage ∧
      (requestPasswordReset [c4User] [c4RecentGrant] "bob@x.com" 1100 "h2").1
        ≠ .jsonSuccess 200 genericResetMessage := by
  decide

/-- C4 amended: when no live unused grant from the last 15 minutes
exists, the request returns the identical generic success shape
whether or not the email matches an account (enumeration resistance
holds on that path); but when such a recent grant exists the client
receives the HTTP 429 rate-limit error, so the RateLimited outcome is
exposed rather than wrapped in a generic success. -/
theorem c4_reset_request_response_amended (users1 users2 : List User)
    (resets : List PasswordResetRow) (email : String) (now : Nat)
    (th1 th2 : String) (hne : email ≠ "") :
    (hasRecentUnusedGrant resets email now = false →
      (requestPasswordReset users1 resets email now th1).1
          = .jsonSuccess 200 genericResetMessage ∧
        (requestPasswordReset users2 resets email now th2).1
          = .jsonSuccess 200 genericResetMessage) ∧
    (hasRecentUnusedGrant resets email now = true →
      (requestPasswordReset users1 resets email now th1).1
        = .fiberError 429 rateLimitedMessage) := by
  unfold requestPasswordReset
  simp only [if_neg hne]
  constructor
  · intro hno
    rw [hno]
    simp only [if_neg Bool.false_ne_true]
    refine ⟨?_, ?_⟩ <;> (split <;> rfl)
  · intro hyes
    rw [hyes]
    rw [if_pos rfl]

/-- Witness for C4 amended: the concrete no-recent-grant request for an
existing and for a nonexistent account both return the generic success,
and the rate-limited request returns 429. -/
theorem c4_reset_request_response_amended_witness :
    (requestPasswordReset [c4User] [] "bob@x.com" 1100 "h2").1
        = .jsonSuccess 200 genericResetMessage ∧
      (requestPasswordReset [] [] "bob@x.com" 1100 "h2").1
        = .jsonSuccess 200 genericResetMessage ∧
      (requestPasswordReset [c4User] [c4RecentGrant] "bob@x.com" 1100 "h2").1
        = .fiberError 429 rateLimitedMessage :=
  ⟨((c4_reset_request_response_amended [c4User] [] [] "bob@x.com" 1100 "h2" "h2"
      (by decide)).1 (by decide)).1,
   ((c4_reset_request_response_amended [c4User] [] [] "bob@x.com" 1100 "h2" "h2"
      (by decide)).1 (by decide)).2,
   (c4_reset_request_response_amended [c4User] [] [c4RecentGrant] "bob@x.com" 1100
      "h2" "h2" (by decide)).2 (by decide)⟩

end GoAuth
namespace GoAuth

/-- Session row (`models.Session`): jti is the current access-token
identifier, refreshToken holds the SHA-256 digest of the refresh
token.  The digest is unique across sessions (spec invariant), so it
serves as the row key where gorm saves by primary key. -/
structure Session where
  jti : String
  userID : Nat
  refreshToken : String
  revoked : Bool
  expiresAt : Nat
deriving DecidableEq, Repr

/-- The claims GetSignedKey from `src/utils/jwt.go` signs into the
bearer token: a fresh token id, the subject, and a 5-minute expiry. -/
structure BearerToken where
  jti : String
  sub : Nat
  exp : Nat
deriving DecidableEq, Repr

/-- GenerateRefreshToken from `src/utils/crypto.go`: the encoded random
value together with its SHA-256 digest.  The randomness source and the
hash primitive are external, so the encoded value and the hash
function are parameters. -/
def generateRefreshToken (hashFn : String → String) (entropy : String) :
    String × String :=
  (entropy, hashFn entropy)

/-- The session-creation fragment shared by Register, Login and the
OAuth handlers (`src/handlers/auth.go` lines 82-91): a session row
carrying the access-token id, the refresh-token digest, revoked =
false and a 30-day expiry; the cleartext refresh token is returned
once to the caller (set as a cookie), never stored. -/
def createSession (hashFn : String → String) (jti : String) (userID : Nat)
    (entropy : String) (now : Nat) : String × Session :=
  let pair := generateRefreshToken hashFn entropy
  (pair.1,
   { jti := jti, userID := userID, refreshToken := pair.2,
     revoked := false, expiresAt := now + 2592000 })

/-- Outcomes of the RefreshToken handler. -/
inductive RotateResult
  | ok (token : BearerToken)
  | missingToken
  | notFound
  | revokedToken
  | expiredToken
deriving DecidableEq, Repr

/-- RefreshToken from `src/handlers/auth.go`: look the session up by
the digest of the presented cookie; 401 on a missing row; 401 on a
revoked session; on an expired session set revoked = true and save
before failing 401; otherwise replace the stored access-token id and
return the newly signed bearer token with a 5-minute expiry. -/
def rotate (hashFn : String → String) (sessions : List Session)
    (presented : String) (now : Nat) (newJTI : String) :
    RotateResult × List Session :=
  if presented = "" then (.missingToken, sessions)
  else
    match sessions.find? (fun s => decide (s.refreshToken = hashFn presented)) with
    | none => (.notFound, sessions)
    | some s =>
      if s.revoked then (.revokedToken, sessions)
      else if s.expiresAt < now then
        (.expiredToken, sessions.map (fun t =>
          if t.refreshToken = s.refreshToken then { t with revoked := true } else t))
      else
        (.ok { jti := newJTI, sub := s.userID, exp := now + 300 },
         sessions.map (fun t =>
           if t.refreshToken = s.refreshToken then { t with jti := newJTI } else t))

theorem find?_map_key {α : Type} (f : α → α) (p : α → Bool) (l : List α) (a : α)
    (hp : ∀ x, p (f x) = p x) (hfind : l.find? p = some a) :
    (l.map f).find? p = some (f a) := by
  induction l with
  | nil => cases hfind
  | cons x xs ih =>
    rw [List.map_cons]
    by_cases hx : p x = true
    · rw [List.find?_cons_of_pos _ hx] at hfind
      cases hfind
      rw [List.find?_cons_of_pos _ (by rw [hp]; exact hx)]
    · rw [List.find?_cons_of_neg _ hx] at hfind
      rw [List.find?_cons_of_neg _ (by rw [hp]; exact hx)]
      exact ih hfind

/-- C5: rotate on a revoked or expired session fails and never returns
a bearer token; and whenever the matching session is expired, the
session row carries revoked = true afterwards — on the first
observation of expiry the handler flips the flag, and on a session
already revoked it stays set, so expiry is converted to a permanent
revocation. -/
theorem c5_rotate_revoked_expired (hashFn : String → String)
    (sessions : List Session) (presented : String) (now : Nat) (newJTI : String)
    (s : Session) (hne : presented ≠ "")
    (hfind : sessions.find? (fun t => decide (t.refreshToken = hashFn presented)) = some s)
    (hbad : s.revoked = true ∨ s.expiresAt < now) :
    (∀ tok, (rotate hashFn sessions presented now newJTI).1 ≠ .ok tok) ∧
      (s.expiresAt < now →
        (rotate hashFn sessions presented now newJTI).2.find?
            (fun t => decide (t.refreshToken = hashFn presented))
          = some { s with revoked := true }) := by
  unfold rotate
  rw [if_neg hne, hfind]
  dsimp only
  by_cases hrev : s.revoked = true
  · rw [if_pos hrev]
    constructor
    · intro tok h
      cases h
    · intro hexp
      rw [hfind]
      obtain ⟨j, u, r, rv, e⟩ := s
      cases hrev
      rfl
  · rw [if_neg hrev]
    have hexp : s.expiresAt < now := by
      rcases hbad with hb | hb
      · exact absurd hb hrev
      · exact hb
    rw [if_pos hexp]
    constructor
    · intro tok h
      cases h
    · intro hexp2
      have hpres : ∀ x : Session,
          (if x.refreshToken = s.refreshToken then { x with revoked := true }
           else x).refreshToken = x.refreshToken := by
        intro x
        by_cases hx : x.refreshToken = s.refreshToken
        · rw [if_pos hx]
        · rw [if_neg hx]
      have hmap := find?_map_key
        (fun t => if t.refreshToken = s.refreshToken then { t with revoked := true } else t)
        (fun t => decide (t.refreshToken = hashFn presented)) sessions s
        (fun x => by simp only [hpres x]) hfind
      rw [hmap]
      dsimp only
      rw [if_pos rfl]

/-- A concrete hash stand-in for SHA-256 in witnesses. -/
def witnessHash : String → String := fun t => "sha256:" ++ t

/-- A concrete expired, unrevoked session for the C5 witness. -/
def c5Expired : Session :=
  { jti := "jti-old", userID := 7, refreshToken := "sha256:rt-1",
    revoked := false, expiresAt := 100 }

/-- The post-rotation lookup of the C5 witness session by its stored
digest. -/
def c5DigestLookup (sessions : List Session) : Option Session :=
  sessions.find? (fun t => decide (t.refreshToken = witnessHash "rt-1"))

/-- Witness for C5: rotating the expired session at time 200 returns no
token and leaves the row revoked. -/
theorem c5_rotate_revoked_expired_witness :
    (rotate witnessHash [c5Expired] "rt-1" 200 "jti-new").1
        ≠ .ok { jti := "jti-new", sub := 7, exp := 500 } ∧
      c5DigestLookup (rotate witnessHash [c5Expired] "rt-1" 200 "jti-new").2
        = some { c5Expired with revoked := true } :=
  ⟨(c5_rotate_revoked_expired witnessHash [c5Expired] "rt-1" 200 "jti-new" c5Expired
      (by decide) (by decide) (Or.inr (by decide))).1
      { jti := "jti-new", sub := 7, exp := 500 },
   (c5_rotate_revoked_expired witnessHash [c5Expired] "rt-1" 200 "jti-new" c5Expired
      (by decide) (by decide) (Or.inr (by decide))).2 (by decide)⟩

/-- The string fields a Session row persists. -/
def sessionStrings (s : Session) : List String := [s.jti, s.refreshToken]

/-- C9: the cleartext refresh token returned by createSession hashes to
exactly the digest stored in the session row; and provided the hash is
not a fixpoint on the token and the access-token id differs from it,
the cleartext occurs in none of the row's persisted string fields. -/
theorem c9_refresh_token_round_trip (hashFn : String → String) (jti : String)
    (userID : Nat) (entropy : String) (now : Nat)
    (hh : hashFn entropy ≠ entropy) (hj : jti ≠ entropy) :
    hashFn (createSession hashFn jti userID entropy now).1
        = (createSession hashFn jti userID entropy now).2.refreshToken ∧
      (createSession hashFn jti userID entropy now).1
        ∉ sessionStrings (createSession hashFn jti userID entropy now).2 := by
  refine ⟨rfl, ?_⟩
  intro hmem
  simp only [createSession, generateRefreshToken, sessionStrings,
    List.mem_cons, List.not_mem_nil, or_false] at hmem
  rcases hmem with h | h
  · exact hj h.symm
  · exact hh h.symm

/-- Witness for C9: a concrete session minted with the stand-in hash,
whose stored digest is the hash of the returned cleartext and whose
row nowhere contains the cleartext. -/
theorem c9_refresh_token_round_trip_witness :
    witnessHash (createSession witnessHash "jti-1" 7 "rt-9" 50).1
        = (createSession witnessHash "jti-1" 7 "rt-9" 50).2.refreshToken ∧
      (createSession witnessHash "jti-1" 7 "rt-9" 50).1
        ∉ sessionStrings (createSession witnessHash "jti-1" 7 "rt-9" 50).2 :=
  c9_refresh_token_round_trip witnessHash "jti-1" 7 "rt-9" 50 (by decide) (by decide)

end GoAuth
namespace GoAuth

/-- The 404 message of Login. -/
def userNotFoundMessage : String := "User not found"

/-- The 401 message of Login. -/
def invalidCredentialsMessage : String := "Invalid credentials"

/-- Login from `src/handlers/auth.go`: look the user up by email and
return 404 "User not found" on a miss; verify the password against the
stored bcrypt digest and return 401 "Invalid credentials" on a
mismatch; otherwise mint a session and answer 200.  The bcrypt
comparison is the external parameter `verifyFn`. -/
def login (verifyFn : String → String → Bool) (users : List User)
    (email password : String) : ClientResponse :=
  match users.find? (fun u => decide (u.email = email)) with
  | none => .fiberError 404 userNotFoundMessage
  | some u =>
    if ! verifyFn password u.password then .fiberError 401 invalidCredentialsMessage
    else .jsonSuccess 200 "Signed in successfully"

/-- A credential account for the C7 scenario. -/
def c7User : User :=
  { id := 1, username := "alice", email := "a@x.com", password := "digest-a",
    accountType := .email }

/-- A bcrypt stand-in that rejects every password. -/
def c7NoVerify : String → String → Bool := fun _ _ => false

/-- C7 counterexample: the error for an unknown email (404 "User not
found") and the error for a wrong password on an existing account
(401 "Invalid credentials") are different responses of different
classes, so the login response does reveal whether the submitted email
exists. -/
theorem c7_login_error_class_counterexample :
    login c7NoVerify [c7User] "missing@x.com" "pw" = .fiberError 404 userNotFoundMessage ∧
      login c7NoVerify [c7User] "a@x.com" "wrong-pw"
        = .fiberError 401 invalidCredentialsMessage ∧
      login c7NoVerify [c7User] "missing@x.com" "pw"
        ≠ login c7NoVerify [c7User] "a@x.com" "wrong-pw" := by
  decide

/-- C7 amended: for every store and submitted credentials, login
answers 404 "User not found" exactly when no account carries the email
and 401 "Invalid credentials" when the account exists but the password
does not verify — two distinguishable error classes rather than one
generic class. -/
theorem c7_login_errors_distinct_amended (verifyFn : String → String → Bool)
    (users : List User) (email password : String) :
    (users.find? (fun u => decide (u.email = email)) = none →
      login verifyFn users email password = .fiberError 404 userNotFoundMessage) ∧
    (∀ u, users.find? (fun u => decide (u.email = email)) = some u →
      verifyFn password u.password = false →
      login verifyFn users email password = .fiberError 401 invalidCredentialsMessage) := by
  constructor
  · intro hnone
    unfold login
    rw [hnone]
  · intro u hsome hverify
    unfold login
    rw [hsome]
    dsimp only
    rw [hverify]
    rfl

/-- Witness for C7 amended: the concrete miss and the concrete
password-failure responses. -/
theorem c7_login_errors_distinct_amended_witness :
    login c7NoVerify [c7User] "missing@x.com" "pw"
        = .fiberError 404 userNotFoundMessage ∧
      login c7NoVerify [c7User] "a@x.com" "wrong-pw"
        = .fiberError 401 invalidCredentialsMessage :=
  ⟨(c7_login_errors_distinct_amended c7NoVerify [c7User] "missing@x.com" "pw").1
      (by decide),
   (c7_login_errors_distinct_amended c7NoVerify [c7User] "a@x.com" "wrong-pw").2
      c7User (by decide) (by decide)⟩

/-- The token blanking GetMe and GetOAuthAccounts apply to each linked
OAuth account before serialising (`src/unnamed/part_001`). -/
def sanitizeLink (l : OAuthAccount) : OAuthAccount :=
  { l with accessToken := "", refreshToken := "" }

/-- GetMe from `src/unnamed/part_001`: load the user with the preloaded
links, 404 on a miss, then blank the password digest and every link's
provider tokens before returning the payload. -/
def getMePayload (db : DB) (uid : Nat) : Option (User × List OAuthAccount) :=
  match findUserByID db uid with
  | none => none
  | some u => some ({ u with password := "" }, (userLinks db uid).map sanitizeLink)

/-- GetOAuthAccounts from `src/unnamed/part_001`: the user's links with
both provider tokens blanked. -/
def getOAuthAccountsPayload (db : DB) (uid : Nat) : List OAuthAccount :=
  (userLinks db uid).map sanitizeLink

/-- C10: whatever digests and provider tokens are stored, every payload
GetMe returns carries an empty credential digest and empty provider
access and refresh tokens on every linked account, and every payload
GetOAuthAccounts returns carries empty provider tokens. -/
theorem c10_sanitized_payloads (db : DB) (uid : Nat) (u : User)
    (links : List OAuthAccount)
    (hme : getMePayload db uid = some (u, links)) :
    u.password = "" ∧
      (∀ l ∈ links, l.accessToken = "" ∧ l.refreshToken = "") ∧
      (∀ l ∈ getOAuthAccountsPayload db uid,
        l.accessToken = "" ∧ l.refreshToken = "") := by
  unfold getMePayload at hme
  cases hfu : findUserByID db uid with
  | none =>
    rw [hfu] at hme
    cases hme
  | some u0 =>
    rw [hfu] at hme
    dsimp only at hme
    injection hme with hpair
    injection hpair with hu hlinks
    refine ⟨?_, ?_, ?_⟩
    · rw [← hu]
    · intro l hl
      rw [← hlinks] at hl
      rcases List.mem_map.mp hl with ⟨x, _, rfl⟩
      exact ⟨rfl, rfl⟩
    · intro l hl
      unfold getOAuthAccountsPayload at hl
      rcases List.mem_map.mp hl with ⟨x, _, rfl⟩
      exact ⟨rfl, rfl⟩

/-- A store holding secrets for the C10 witness: a hybrid account with
a stored digest and one link with stored provider tokens. -/
def c10DB : DB :=
  { users := [{ id := 1, username := "alice", email := "a@x.com",
                password := "digest-a", accountType := .hybrid }],
    links := [mkLink 1 .google "g1" "a@x.com" "Alice" "secret-access" "secret-refresh"],
    nextUserID := 2 }

/-- Witness for C10: the concrete payloads expose neither the stored
digest nor the stored provider tokens. -/
theorem c10_sanitized_payloads_witness :
    ({ id := 1, username := "alice", email := "a@x.com", password := "",
       accountType := .hybrid } : User).password = "" ∧
      (sanitizeLink (mkLink 1 .google "g1" "a@x.com" "Alice"
          "secret-access" "secret-refresh")).accessToken = "" ∧
      (sanitizeLink (mkLink 1 .google "g1" "a@x.com" "Alice"
          "secret-access" "secret-refresh")).refreshToken = "" :=
  ⟨(c10_sanitized_payloads c10DB 1 _ _ (by rfl)).1,
   ((c10_sanitized_payloads c10DB 1 _ _ (by rfl)).2.2
      (sanitizeLink (mkLink 1 .google "g1" "a@x.com" "Alice"
        "secret-access" "secret-refresh")) (by decide)).1,
   ((c10_sanitized_payloads c10DB 1 _ _ (by rfl)).2.2
      (sanitizeLink (mkLink 1 .google "g1" "a@x.com" "Alice"
        "secret-access" "secret-refresh")) (by decide)).2⟩

/-- C6: an OAuth callback with no existing identity for (provider,
subject) whose email belongs to a credential (email) account returns
action link_required with http 409 and leaves every stored row
untouched: the transaction is rolled back. -/
theorem c6_link_required_no_mutation (db : DB) (p : OAuthProvider)
    (pid em nm tk rk : String) (user : User)
    (hnolink : findLink db p pid = none)
    (huser : findUserByEmail db em = some user)
    (hty : user.accountType = .email) :
    processOAuthLogin db p pid em nm tk rk = (.linkRequired, db) ∧
      httpCode .linkRequired = 409 ∧ actionOf .linkRequired = some "link_required" := by
  refine ⟨?_, rfl, rfl⟩
  unfold processOAuthLogin
  rw [hnolink]
  dsimp only
  rw [huser]
  dsimp only
  rw [hty]

/-- The store for the C6 and C8 witnesses before the callback: one
credential account for a@x.com with no links. -/
def c6DB : DB :=
  { users := [{ id := 1, username := "alice", email := "a@x.com",
                password := "digest-a", accountType := .email }],
    links := [], nextUserID := 2 }

/-- Witness for C6: the concrete github callback on the credential
account returns link_required and the identical store. -/
theorem c6_link_required_no_mutation_witness :
    processOAuthLogin c6DB .github "h1" "a@x.com" "Alice" "t" "r"
        = (.linkRequired, c6DB) ∧
      httpCode .linkRequired = 409 ∧ actionOf .linkRequired = some "link_required" :=
  c6_link_required_no_mutation c6DB .github "h1" "a@x.com" "Alice" "t" "r"
    { id := 1, username := "alice", email := "a@x.com", password := "digest-a",
      accountType := .email }
    (by decide) (by decide) (by decide)

/-- C8: unlink on an account of kind federated (oauth) holding exactly
one FederatedIdentity fails with the last-auth-method error (400) and
deletes nothing: the store is returned unchanged. -/
theorem c8_unlink_last_auth_method (db : DB) (uid : Nat) (p : OAuthProvider)
    (user : User) (link : OAuthAccount)
    (hfu : findUserByID db uid = some user)
    (hfl : db.links.find? (fun l => decide (l.userID = uid ∧ l.provider = p)) = some link)
    (hty : user.accountType = .oauth)
    (hcount : (userLinks db uid).length = 1) :
    unlinkOAuthAccount db uid p = (.lastAuthMethod, db) := by
  unfold unlinkOAuthAccount
  rw [hfu]
  dsimp only
  rw [hfl]
  dsimp only
  rw [if_pos ⟨hty, le_of_eq hcount⟩]

/-- The store for the C8 witness: one federated account with exactly
one google identity. -/
def c8DB : DB :=
  { users := [{ id := 1, username := "alice", email := "a@x.com",
                password := "", accountType := .oauth }],
    links := [mkLink 1 .google "g1" "a@x.com" "Alice" "t" "r"],
    nextUserID := 2 }

/-- Witness for C8: unlinking the only google identity of the federated
account fails with lastAuthMethod and the store is unchanged. -/
theorem c8_unlink_last_auth_method_witness :
    unlinkOAuthAccount c8DB 1 .google = (.lastAuthMethod, c8DB) :=
  c8_unlink_last_auth_method c8DB 1 .google
    { id := 1, username := "alice", email := "a@x.com", password := "",
      accountType := .oauth }
    (mkLink 1 .google "g1" "a@x.com" "Alice" "t" "r")
    (by decide) (by decide) (by decide) (by decide)

end GoAuth
